import Mathlib

/-!
Verification of the `common` repository's two utility modules against its
specification.

The repository contains two Python modules:
* `py/utils/git_utils.py` — thin wrappers around git command invocations and a
  scoped branch-lifecycle helper (`GitBranch`).
* `py/utils/gs_utils.py` — thin wrappers around the boto Google Cloud Storage
  client (`GSUtils`).

Both modules are glue code around external effects.  We embed them shallowly:

* Shelling out (`shell_utils.run`) is modelled by a `GitWorld` containing a
  response oracle: given the history of commands issued so far and the next
  command, the oracle answers with the command's captured output, either as a
  success or as a failure (`shell_utils.CommandFailedException` carries the
  captured output).  Each embedded function threads the trace of issued
  commands explicitly, so theorems can speak about which commands were issued
  and in which order.
* The boto client is modelled by a `GsWorld` of error oracles (which calls
  raise `BotoServerError`, and with which message body) together with an
  explicit remote ACL store, threaded through the ACL-mutating operations.
  Python's built-in `repr` on strings is kept abstract as a field of the
  world, since only its application — not its definition — appears in the
  source.

Python string operations used by the source (`in`, `rstrip`, `split`,
slicing, `posixpath.join`) are given executable Lean counterparts operating
on `String.data` character lists.
-/

/-! ## Python string primitives -/

/-- Substring search on character lists: does `needle` occur contiguously in
`hay`?  (The empty needle occurs everywhere, as in Python.) -/
def listInfix (needle : List Char) : List Char → Bool
  | [] => needle.isEmpty
  | c :: rest => needle.isPrefixOf (c :: rest) || listInfix needle rest

/-- Python `needle in hay` on strings: substring containment. -/
def pyIn (needle hay : String) : Bool :=
  listInfix needle.data hay.data

/-- Python `str.isspace` characters relevant to `str.rstrip()` (ASCII part). -/
def pySpace (c : Char) : Bool :=
  c = ' ' || c = '\t' || c = '\n' || c = '\r' || c = '\x0b' || c = '\x0c'

/-- Python `s.rstrip()`: drop trailing whitespace characters. -/
def pyRstrip (s : String) : String :=
  ⟨(s.data.reverse.dropWhile pySpace).reverse⟩

/-- Python `s.split('\n')[0]`: everything before the first newline. -/
def firstLine (s : String) : String :=
  ⟨s.data.takeWhile (fun c => c ≠ '\n')⟩

/-- Python slicing `s[n:]` (total: yields `""` when `n ≥ len(s)`). -/
def pyDrop (s : String) (n : Nat) : String :=
  ⟨s.data.drop n⟩

/-- Python slicing `s[n:-1]`: characters from index `n` up to, but not
including, the last one. -/
def pyDropEnds (s : String) (n : Nat) : String :=
  ⟨(s.data.drop n).dropLast⟩

/-- Python `posixpath.join(a, b)` for two components, as in the CPython source:
if `b` is absolute it wins; otherwise `b` is appended to `a`, inserting a
`'/'` unless `a` is empty or already ends with one. -/
def posixpathJoin (a b : String) : String :=
  if b.data.head? = some '/' then b
  else if a.data = [] ∨ a.data.getLast? = some '/' then ⟨a.data ++ b.data⟩
  else ⟨a.data ++ '/' :: b.data⟩

/-! ## Shell model for `git_utils.py` -/

/-- Result of one `shell_utils.run` invocation: the command's captured
output, tagged with whether the command succeeded or raised
`CommandFailedException` (which carries that output). -/
inductive RunResult where
  | ok (output : String)
  | fail (output : String)
deriving DecidableEq

/-- Returns `true` when the invocation succeeded. -/
def RunResult.isOk : RunResult → Bool
  | .ok _ => true
  | .fail _ => false

/-- The trace of commands issued so far, oldest first. -/
abbrev Trace := List (List String)

/-- The environment the git wrapper runs in: for every history of previously
issued commands and every next command, the outcome of running it. -/
structure GitWorld where
  run : Trace → List String → RunResult

/-- Exceptions the git wrapper can raise. -/
inductive GitExn where
  /-- Models `shell_utils.CommandFailedException`, carrying the captured output. -/
  | commandFailed (output : String)
  /-- Models the `AttributeError` from calling `.group` on a failed `re.match`. -/
  | attrError
deriving DecidableEq

/-- Embeds `shell_utils.run(cmd)`: issue the command (appending it to the trace) and
either return its output or raise `CommandFailedException`. -/
def shRun (w : GitWorld) (tr : Trace) (cmd : List String) :
    Except GitExn String × Trace :=
  match w.run tr cmd with
  | .ok o => (.ok o, tr ++ [cmd])
  | .fail o => (.error (.commandFailed o), tr ++ [cmd])

/-! ## `git_utils.py` functions

`GIT` is resolved once at import time by `_FindGit()`; we keep it as an
explicit `git : String` parameter. -/

/-- Embeds `FullHash(commit)`: `run([GIT, 'rev-parse', '--verify', commit]).rstrip()`. -/
def FullHash (w : GitWorld) (tr : Trace) (git commit : String) :
    Except GitExn String × Trace :=
  let (r, tr) := shRun w tr [git, "rev-parse", "--verify", commit]
  (r.map pyRstrip, tr)

/-- Embeds `IsMerge(commit)`: compare the commit's full hash against the first output
line of `rev-parse <commit> --max-count=1 --no-merges`. -/
def IsMerge (w : GitWorld) (tr : Trace) (git commit : String) :
    Except GitExn Bool × Trace :=
  let (r1, tr) := shRun w tr [git, "rev-parse", commit, "--max-count=1", "--no-merges"]
  match r1 with
  | .error e => (.error e, tr)
  | .ok rev_parse =>
    let last_non_merge := firstLine rev_parse
    let (r2, tr) := FullHash w tr git commit
    match r2 with
    | .error e => (.error e, tr)
    | .ok full => (.ok (decide (full ≠ last_non_merge)), tr)

/-- Regex `^Issue number: (?P<issue>\d+) \((?P<issue_url>.+)\)$` applied by
`re.match` to the (rstripped, hence newline-free-at-end) output of
`git cl issue`; returns the `issue_url` group.  The match succeeds exactly on
strings of the form `Issue number: <digits> (<url>)` with at least one digit
and a nonempty, newline-free `<url>`. -/
def parseIssueUrl (s : String) : Option String :=
  let l := s.data
  let pre := "Issue number: ".data
  if pre.isPrefixOf l then
    let rest := l.drop pre.length
    let digits := rest.takeWhile Char.isDigit
    let rest2 := rest.drop digits.length
    match rest2 with
    | ' ' :: '(' :: tail =>
      if digits = [] then none
      else
        let url := tail.dropLast
        if tail.getLast? = some ')' ∧ url ≠ [] ∧ url.all (fun c => c ≠ '\n') then
          some ⟨url⟩
        else none
    | _ => none
  else none

/-- Instance state of the `GitBranch` scoped helper.  `patch_set` is the
`_patch_set` counter, initialised to `0` by `__init__`. -/
structure GitBranch where
  branch_name : String
  commit_msg : String
  upload : Bool
  commit_queue : Bool
  patch_set : Nat
  delete_when_finished : Bool
deriving DecidableEq

/-- Embeds `GitBranch.__init__`: stores the flags and sets `_patch_set = 0`. -/
def GitBranch.init (branch_name commit_msg : String) (upload commit_queue
    delete_when_finished : Bool) : GitBranch :=
  { branch_name := branch_name
    commit_msg := commit_msg
    upload := upload
    commit_queue := commit_queue
    patch_set := 0
    delete_when_finished := delete_when_finished }

/-- Embeds `GitBranch.__enter__`: hard reset, checkout master, delete a pre-existing
branch of the same name when the name occurs in `git branch`'s output, then
create a fresh tracking branch.  Any command failure propagates. -/
def GitBranch.enter (w : GitWorld) (git : String) (gb : GitBranch) (tr : Trace) :
    Except GitExn Unit × Trace :=
  let (r1, tr) := shRun w tr [git, "reset", "--hard", "HEAD"]
  match r1 with
  | .error e => (.error e, tr)
  | .ok _ =>
  let (r2, tr) := shRun w tr [git, "checkout", "master"]
  match r2 with
  | .error e => (.error e, tr)
  | .ok _ =>
  let (r3, tr) := shRun w tr [git, "branch"]
  match r3 with
  | .error e => (.error e, tr)
  | .ok branches =>
  let afterDelete : Except GitExn Unit × Trace :=
    if pyIn gb.branch_name branches then
      let (rd, tr) := shRun w tr [git, "branch", "-D", gb.branch_name]
      match rd with
      | .error e => (.error e, tr)
      | .ok _ => (.ok (), tr)
    else (.ok (), tr)
  match afterDelete with
  | (.error e, tr) => (.error e, tr)
  | (.ok _, tr) =>
  let (r4, tr) := shRun w tr [git, "checkout", "-b", gb.branch_name, "-t", "origin/master"]
  match r4 with
  | .error e => (.error e, tr)
  | .ok _ => (.ok (), tr)

/-- The `git cl upload` command built by `commit_and_upload` once the counter
has been incremented to `ps`: the `-t 'Patch set <ps>'` pair is appended
exactly when `ps > 1`, then `--use-commit-queue` when requested. -/
def uploadCmd (git : String) (ps : Nat) (use_commit_queue : Bool) : List String :=
  [git, "cl", "upload", "-f", "--bypass-hooks", "--bypass-watchlists"]
    ++ (if ps > 1 then ["-t", "Patch set " ++ toString ps] else [])
    ++ (if use_commit_queue then ["--use-commit-queue"] else [])

/-- Embeds `GitBranch.commit_and_upload`: commit all changes (swallowing a failure
whose output contains `'nothing to commit'`), increment `_patch_set`, issue
the upload command, read `git cl issue` and parse the issue URL.  Returns the
result, the updated instance state and the command trace. -/
def GitBranch.commit_and_upload (w : GitWorld) (git : String) (gb : GitBranch)
    (use_commit_queue : Bool) (tr : Trace) :
    Except GitExn String × GitBranch × Trace :=
  let (rc, tr) := shRun w tr [git, "commit", "-a", "-m", gb.commit_msg]
  let commitExn : Option GitExn :=
    match rc with
    | .ok _ => none
    | .error (.commandFailed o) =>
        if pyIn "nothing to commit" o then none else some (.commandFailed o)
    | .error e => some e
  match commitExn with
  | some e => (.error e, gb, tr)
  | none =>
    let ps := gb.patch_set + 1
    let gb := { gb with patch_set := ps }
    let (ru, tr) := shRun w tr (uploadCmd git ps use_commit_queue)
    match ru with
    | .error e => (.error e, gb, tr)
    | .ok _ =>
      let (ri, tr) := shRun w tr [git, "cl", "issue"]
      match ri with
      | .error e => (.error e, gb, tr)
      | .ok o =>
        match parseIssueUrl (pyRstrip o) with
        | some url => (.ok url, gb, tr)
        | none => (.error .attrError, gb, tr)

/-- The `finally` block of `GitBranch.__exit__`: checkout master, then delete
the working branch when `delete_when_finished`.  A failure inside the block
replaces the body's outcome; otherwise the body's outcome is passed through. -/
def GitBranch.exitCleanup (w : GitWorld) (git : String) (gb : GitBranch)
    (bodyRes : Except GitExn Unit) (tr : Trace) : Except GitExn Unit × Trace :=
  let (rc, tr) := shRun w tr [git, "checkout", "master"]
  match rc with
  | .error e => (.error e, tr)
  | .ok _ =>
    if gb.delete_when_finished then
      let (rd, tr) := shRun w tr [git, "branch", "-D", gb.branch_name]
      match rd with
      | .error e => (.error e, tr)
      | .ok _ => (bodyRes, tr)
    else (bodyRes, tr)

/-- Embeds `GitBranch.__exit__(exc_type, ...)`: the whole body — commit-and-upload
guarded by `exc_type is None`, plus the `finally` cleanup — is nested under
`if self._upload:` in the source, so nothing at all happens when the `upload`
flag is false.  `excPresent` is `exc_type is not None`. -/
def GitBranch.exit (w : GitWorld) (git : String) (gb : GitBranch)
    (excPresent : Bool) (tr : Trace) : Except GitExn Unit × GitBranch × Trace :=
  if gb.upload then
    let (bodyRes, gb1, tr1) :=
      if excPresent = false then
        let (r, gb1, tr1) := GitBranch.commit_and_upload w git gb gb.commit_queue tr
        (r.map (fun _ => ()), gb1, tr1)
      else (.ok (), gb, tr)
    let (res, tr2) := GitBranch.exitCleanup w git gb1 bodyRes tr1
    (res, gb1, tr2)
  else (.ok (), gb, tr)

/-! ## Boto model for `gs_utils.py` -/

/-- The identifier types usable for fine-grained ACLs (`ID_TYPE_*`, mirroring
boto's `acl.GROUP_BY_DOMAIN`, …). -/
inductive IdType where
  | groupByDomain
  | groupByEmail
  | groupById
  | userByEmail
  | userById
deriving DecidableEq

/-- The scope fields an ACL entry can carry (`'domain'`, `'email_address'`,
`'id'`). -/
inductive AclField where
  | domain
  | email_address
  | id
deriving DecidableEq

/-- Embeds `FIELD_BY_ID_TYPE`: which scope field is read/written for each id type. -/
def FIELD_BY_ID_TYPE : IdType → AclField
  | .groupByDomain => .domain
  | .groupByEmail => .email_address
  | .groupById => .id
  | .userByEmail => .email_address
  | .userById => .id

/-- A boto ACL entry scope: its type plus the three possible identifier
fields (unset fields are `none`, as in boto). -/
structure Scope where
  type : IdType
  domain : Option String
  email_address : Option String
  id : Option String
deriving DecidableEq

/-- Python `getattr(scope, field)`. -/
def Scope.getattr (s : Scope) : AclField → Option String
  | .domain => s.domain
  | .email_address => s.email_address
  | .id => s.id

/-- A boto ACL entry: scope plus permission string (`'READ'`, `'WRITE'`,
`'FULL_CONTROL'`).  Entries fetched from the server always carry a concrete
permission; the `PERMISSION_NONE = None` value exists only as an argument to
`set_acl` / result of `get_acl`. -/
structure AclEntry where
  scope : Scope
  permission : String
deriving DecidableEq

/-- The filter predicate both `get_acl` and `set_acl` apply to the fetched
entry list: `entry.scope.type == id_type and getattr(entry.scope, field) ==
id_value` with `field = FIELD_BY_ID_TYPE[id_type]`. -/
def aclMatches (id_type : IdType) (id_value : String) (entry : AclEntry) : Bool :=
  decide (entry.scope.type = id_type)
    && decide (entry.scope.getattr (FIELD_BY_ID_TYPE id_type) = some id_value)

/-- Embeds `acl.Entry(type=id_type, permission=permission, <field>=id_value)`: a new
entry with only the field named by `field` set. -/
def mkAclEntry (id_type : IdType) (field : AclField) (id_value permission : String) :
    AclEntry :=
  { scope :=
      { type := id_type
        domain := if field = .domain then some id_value else none
        email_address := if field = .email_address then some id_value else none
        id := if field = .id then some id_value else none }
    permission := permission }

/-- Python `list.remove(e)`: drop the first occurrence of `e`.  (`set_acl`
only ever removes an element it just found in the list, so the `ValueError`
branch of the Python built-in is unreachable.) -/
def listRemove : List AclEntry → AclEntry → List AclEntry
  | [], _ => []
  | a :: rest, e => if a = e then rest else a :: listRemove rest e

/-- An item yielded by boto's `BucketListResultSet` with a `/` delimiter:
either a `Key` (a file) or a `Prefix` (a common prefix, i.e. a
subdirectory). -/
inductive BotoItem where
  | key (k : String)
  | pfx (name : String)
deriving DecidableEq

/-- The remote ACL state: one entry list per `(bucket, path)` pair.  A pair
without a binding has an empty ACL (the source leaves the behaviour for a
missing object undefined — see its TODOs). -/
abbrev GsStore := List ((String × String) × List AclEntry)

/-- Exceptions the cloud-storage wrapper can raise. -/
inductive GsExn where
  /-- Models `BotoServerError`; we track its `body` message. -/
  | boto (body : String)
  /-- Models the `AssertionError` from the `assert len(matching_entries) == 1` checks. -/
  | assertFail
  /-- Modelling artefact: recursion fuel for `download_dir_contents` ran
  out.  Real executions correspond to a sufficiently large fuel. -/
  | outOfFuel
deriving DecidableEq

/-- The environment the storage wrapper runs in.  Each `…Err` oracle tells
whether the corresponding boto call raises `BotoServerError`, and with which
`body`; `pyRepr` is Python's built-in `repr` on strings, kept abstract; and
`listing` is the delimiter-based bucket listing, which either fails or yields
the boto items for a `(bucket, prefix)` query. -/
structure GsWorld where
  pyRepr : String → String
  connectErr : String → Option String
  deleteErr : String → String → Option String
  uploadErr : String → String → String → Option String
  downloadErr : String → String → Option String
  aclFetchErr : String → String → Option String
  aclWriteErr : String → String → Option String
  listing : String → String → Except String (List BotoItem)

/-- Look up the ACL entry list stored for `(bucket, path)`. -/
def lookupAcl (st : GsStore) (bucket path : String) : List AclEntry :=
  (st.lookup (bucket, path)).getD []

/-- Write back an entry list for `(bucket, path)`. -/
def updateStore (st : GsStore) (bucket path : String) (entries : List AclEntry) :
    GsStore :=
  ((bucket, path), entries) :: st

/-- Embeds `GSUtils._connect_to_bucket`: on `BotoServerError` the body is rewritten
to `repr(body) + ' while connecting to bucket=<bucket>'` and the exception
re-raised. -/
def connectToBucket (w : GsWorld) (bucket_name : String) : Except GsExn Unit :=
  match w.connectErr bucket_name with
  | some body =>
      .error (.boto (w.pyRepr body ++ " while connecting to bucket=" ++ bucket_name))
  | none => .ok ()

/-- Embeds `b.get_acl(key_name=path)`: fetch the object's ACL; a `BotoServerError`
raised here is NOT caught by `get_acl`/`set_acl` and propagates unmodified. -/
def fetchAcl (w : GsWorld) (st : GsStore) (bucket path : String) :
    Except GsExn (List AclEntry) :=
  match w.aclFetchErr bucket path with
  | some body => .error (.boto body)
  | none => .ok (lookupAcl st bucket path)

/-- Embeds `b.set_acl(acl_or_str=acls, key_name=path)`: write back the modified ACL;
a `BotoServerError` raised here propagates unmodified. -/
def writeAcl (w : GsWorld) (st : GsStore) (bucket path : String)
    (entries : List AclEntry) : Except GsExn GsStore :=
  match w.aclWriteErr bucket path with
  | some body => .error (.boto body)
  | none => .ok (updateStore st bucket path entries)

/-- Embeds `GSUtils.delete_file(bucket, path)`: connect, then delete the key; a
`BotoServerError` from the delete is re-raised with
`repr(body) + ' while deleting bucket=…, path=…'`. -/
def delete_file (w : GsWorld) (bucket path : String) : Except GsExn Unit :=
  match connectToBucket w bucket with
  | .error e => .error e
  | .ok _ =>
    match w.deleteErr bucket path with
    | some body =>
        .error (.boto (w.pyRepr body
          ++ " while deleting bucket=" ++ bucket ++ ", path=" ++ path))
    | none => .ok ()

/-- Embeds `GSUtils.get_acl(bucket, path, id_type, id_value)`: fetch the ACL, filter
the entries matching the identifier, assert at most one match, and return its
permission (or `PERMISSION_NONE` when absent). -/
def get_acl (w : GsWorld) (st : GsStore) (bucket path : String)
    (id_type : IdType) (id_value : String) : Except GsExn (Option String) :=
  match connectToBucket w bucket with
  | .error e => .error e
  | .ok _ =>
    match fetchAcl w st bucket path with
    | .error e => .error e
    | .ok acls =>
      match acls.filter (aclMatches id_type id_value) with
      | [] => .ok none
      | [entry] => .ok (some entry.permission)
      | _ => .error .assertFail

/-- The tail of `set_acl` after the removal step: append the new entry when
the permission is not `PERMISSION_NONE`, then write the ACL back. -/
def writeAclWithNew (w : GsWorld) (st : GsStore) (bucket path : String)
    (acls : List AclEntry) (id_type : IdType) (field : AclField)
    (id_value : String) (permission : Option String) : Except GsExn GsStore :=
  match permission with
  | some p => writeAcl w st bucket path (acls ++ [mkAclEntry id_type field id_value p])
  | none => writeAcl w st bucket path acls

/-- Embeds `GSUtils.set_acl(bucket, path, id_type, id_value, permission)`: fetch the
ACL, remove the (asserted unique) entry matching the identifier if any,
append a fresh entry unless `permission` is `PERMISSION_NONE`, and write the
ACL back. -/
def set_acl (w : GsWorld) (st : GsStore) (bucket path : String)
    (id_type : IdType) (id_value : String) (permission : Option String) :
    Except GsExn GsStore :=
  let field := FIELD_BY_ID_TYPE id_type
  match connectToBucket w bucket with
  | .error e => .error e
  | .ok _ =>
    match fetchAcl w st bucket path with
    | .error e => .error e
    | .ok acls =>
      match acls.filter (aclMatches id_type id_value) with
      | [] => writeAclWithNew w st bucket path acls id_type field id_value permission
      | [entry] =>
          writeAclWithNew w st bucket path (listRemove acls entry)
            id_type field id_value permission
      | _ => .error .assertFail

/-- The `for (id_type, id_value, permission) in fine_grained_acl_list or []`
loop shared by `upload_file` and `upload_dir_contents`: apply `set_acl` for
each triple in order (a `None` list behaves as the empty list). -/
def aclLoop (w : GsWorld) (st : GsStore) (bucket path : String) :
    List (IdType × String × Option String) → Except GsExn GsStore
  | [] => .ok st
  | (id_type, id_value, permission) :: rest =>
    match set_acl w st bucket path id_type id_value permission with
    | .error e => .error e
    | .ok st1 => aclLoop w st1 bucket path rest

/-- Embeds `GSUtils.upload_file`: connect, upload the file contents (a
`BotoServerError` is re-raised with
`repr(body) + ' while uploading source_path=… to bucket=…, path=…'`), then
apply the fine-grained ACL list. -/
def upload_file (w : GsWorld) (st : GsStore) (source_path dest_bucket dest_path :
    String) (predefined_acl : Option String)
    (fine_grained_acl_list : List (IdType × String × Option String)) :
    Except GsExn GsStore :=
  match connectToBucket w dest_bucket with
  | .error e => .error e
  | .ok _ =>
    match w.uploadErr source_path dest_bucket dest_path with
    | some body =>
        .error (.boto (w.pyRepr body
          ++ " while uploading source_path=" ++ source_path
          ++ " to bucket=" ++ dest_bucket ++ ", path=" ++ dest_path))
    | none => aclLoop w st dest_bucket dest_path fine_grained_acl_list

/-- A node of the local filesystem tree walked by `upload_dir_contents`.  A
directory holds its children in the order `sorted(os.listdir(...))` yields
them (name, node). -/
inductive FSNode where
  | file
  | dir (children : List (String × FSNode))

/-- The body of `upload_dir_contents` after its `_connect_to_bucket` call:
iterate over the directory's children; recurse into subdirectories (which
reconnects, as the source calls `upload_dir_contents` again), upload plain
files (re-raising `BotoServerError` with
`repr(body) + ' while uploading local_path=… to bucket=…, path=…'`), and
apply the fine-grained ACL list to every uploaded file.  Local paths are
joined with the same POSIX rules (`os.path.join` on a POSIX host). -/
def uploadChildren (w : GsWorld) (dest_bucket : String)
    (predefined_acl : Option String)
    (fgl : List (IdType × String × Option String)) :
    GsStore → List (String × FSNode) → String → String → Except GsExn GsStore
  | st, [], _, _ => .ok st
  | st, (filename, FSNode.dir sub) :: rest, source_dir, dest_dir =>
    -- recursive call to upload_dir_contents: reconnect, then walk the subtree
    (match connectToBucket w dest_bucket with
     | .error e => .error e
     | .ok _ =>
       match uploadChildren w dest_bucket predefined_acl fgl st sub
           (posixpathJoin source_dir filename) (posixpathJoin dest_dir filename) with
       | .error e => .error e
       | .ok st1 => uploadChildren w dest_bucket predefined_acl fgl st1 rest
           source_dir dest_dir)
  | st, (filename, FSNode.file) :: rest, source_dir, dest_dir =>
    let local_path := posixpathJoin source_dir filename
    let dest_path := posixpathJoin dest_dir filename
    (match w.uploadErr local_path dest_bucket dest_path with
     | some body =>
         .error (.boto (w.pyRepr body
           ++ " while uploading local_path=" ++ local_path
           ++ " to bucket=" ++ dest_bucket ++ ", path=" ++ dest_path))
     | none =>
       match aclLoop w st dest_bucket dest_path fgl with
       | .error e => .error e
       | .ok st1 => uploadChildren w dest_bucket predefined_acl fgl st1 rest
           source_dir dest_dir)

/-- Embeds `GSUtils.upload_dir_contents`: connect, then walk the local tree. -/
def upload_dir_contents (w : GsWorld) (st : GsStore)
    (children : List (String × FSNode)) (source_dir dest_bucket dest_dir : String)
    (predefined_acl : Option String)
    (fine_grained_acl_list : List (IdType × String × Option String)) :
    Except GsExn GsStore :=
  match connectToBucket w dest_bucket with
  | .error e => .error e
  | .ok _ =>
    uploadChildren w dest_bucket predefined_acl fine_grained_acl_list st children
      source_dir dest_dir

/-- Embeds `GSUtils.download_file`: connect, create local parent directories if
requested and open the destination (local-filesystem effects, not modelled),
then fetch the contents; a `BotoServerError` is re-raised with
`repr(body) + ' while downloading bucket=…, path=… to local_path=…'`. -/
def download_file (w : GsWorld) (source_bucket source_path dest_path : String)
    (create_subdirs_if_needed : Bool) : Except GsExn Unit :=
  match connectToBucket w source_bucket with
  | .error e => .error e
  | .ok _ =>
    match w.downloadErr source_bucket source_path with
    | some body =>
        .error (.boto (w.pyRepr body
          ++ " while downloading bucket=" ++ source_bucket
          ++ ", path=" ++ source_path ++ " to local_path=" ++ dest_path))
    | none => .ok ()

/-- The prefix `list_bucket_contents` derives from its `subdir` argument:
`subdir or ''`, with a trailing `'/'` appended when nonempty and missing. -/
def listingPfx (subdir : Option String) : String :=
  let p := match subdir with
    | some s => s
    | none => ""
  if p.data ≠ [] ∧ p.data.getLast? ≠ some '/' then ⟨p.data ++ ['/']⟩ else p

/-- The loop body of `list_bucket_contents`: `Key` items contribute
`item.key[prefix_length:]` to the files, `Prefix` items contribute
`item.name[prefix_length:-1]` to the dirs, each list in iteration order. -/
def splitItems (plen : Nat) : List BotoItem → List String × List String
  | [] => ([], [])
  | BotoItem.key k :: rest =>
    let (dirs, files) := splitItems plen rest
    (dirs, pyDrop k plen :: files)
  | BotoItem.pfx name :: rest =>
    let (dirs, files) := splitItems plen rest
    (pyDropEnds name plen :: dirs, files)

/-- Embeds `GSUtils.list_bucket_contents(bucket, subdir)`: build the prefix, connect,
run the delimiter listing (a `BotoServerError` raised while iterating
propagates unmodified) and split the items into `(dirs, files)`. -/
def list_bucket_contents (w : GsWorld) (bucket : String) (subdir : Option String) :
    Except GsExn (List String × List String) :=
  let pfx := listingPfx subdir
  let prefix_length := if pfx.data ≠ [] then pfx.length else 0
  match connectToBucket w bucket with
  | .error e => .error e
  | .ok _ =>
    match w.listing bucket pfx with
    | .error body => .error (.boto body)
    | .ok items => .ok (splitItems prefix_length items)

/-- The per-file loop of `download_dir_contents`: download each listed file
(re-raising `BotoServerError` with
`repr(body) + ' while downloading bucket=…, path=… to local_path=…'`, where
the path is `posixpath.join(source_dir, filename)`). -/
def downloadFiles (w : GsWorld) (source_bucket source_dir dest_dir : String) :
    List String → Except GsExn Unit
  | [] => .ok ()
  | filename :: rest =>
    let key := posixpathJoin source_dir filename
    let dest_path := posixpathJoin dest_dir filename
    match w.downloadErr source_bucket key with
    | some body =>
        .error (.boto (w.pyRepr body
          ++ " while downloading bucket=" ++ source_bucket
          ++ ", path=" ++ key ++ " to local_path=" ++ dest_path))
    | none => downloadFiles w source_bucket source_dir dest_dir rest

/-- Embeds `GSUtils.download_dir_contents`: make the local directory (not modelled),
connect, list the remote directory, download every file, then recurse into
every subdirectory.  The `fuel` argument bounds the recursion depth — a
modelling artefact; any real, finite bucket corresponds to a large enough
fuel. -/
def download_dir_contents (w : GsWorld) :
    Nat → String → String → String → Except GsExn Unit
  | 0, _, _, _ => .error .outOfFuel
  | Nat.succ fuel, source_bucket, source_dir, dest_dir =>
    match connectToBucket w source_bucket with
    | .error e => .error e
    | .ok _ =>
      match list_bucket_contents w source_bucket (some source_dir) with
      | .error e => .error e
      | .ok (dirs, files) =>
        match downloadFiles w source_bucket source_dir dest_dir files with
        | .error e => .error e
        | .ok _ =>
          dirs.foldl (fun acc dirname =>
            match acc with
            | .error e => .error e
            | .ok _ => download_dir_contents w fuel source_bucket
                (posixpathJoin source_dir dirname) (posixpathJoin dest_dir dirname))
            (.ok ())

/-! ## Concrete environments and states used by witnesses -/

/-- The commit step of `commit_and_upload` does not propagate an exception:
either the commit command succeeds, or it fails with an output containing
`'nothing to commit'`. -/
def commitBenign (w : GitWorld) (tr : Trace) (git : String) (gb : GitBranch) :
    Bool :=
  match w.run tr [git, "commit", "-a", "-m", gb.commit_msg] with
  | .ok _ => true
  | .fail o => pyIn "nothing to commit" o

/-- The (zero- or one-element) list of fresh entries `set_acl` appends:
empty for `PERMISSION_NONE`, the newly built entry otherwise. -/
def newEntryList (t : IdType) (v : String) (perm : Option String) :
    List AclEntry :=
  match perm with
  | some p => [mkAclEntry t (FIELD_BY_ID_TYPE t) v p]
  | none => []

/-- A world where every command succeeds with output `"out"`. -/
def wAllOk : GitWorld := ⟨fun _ _ => .ok "out"⟩

/-- A world where the commit command of a branch with message `"msg"` fails
with an output containing `'nothing to commit'`; everything else succeeds. -/
def wCommitNothing : GitWorld :=
  ⟨fun _ cmd =>
    if cmd = ["git", "commit", "-a", "-m", "msg"] then .fail "On branch topic nothing to commit, working tree clean"
    else .ok "out"⟩

/-- A world where the commit command fails with an unrelated output. -/
def wCommitBroken : GitWorld :=
  ⟨fun _ cmd =>
    if cmd = ["git", "commit", "-a", "-m", "msg"] then .fail "fatal: broken index"
    else .ok "out"⟩

/-- A world where the first-patch-set upload command fails. -/
def wUploadFails : GitWorld :=
  ⟨fun _ cmd =>
    if cmd = ["git", "cl", "upload", "-f", "--bypass-hooks", "--bypass-watchlists"]
    then .fail "upload failed"
    else .ok "out"⟩

/-- A fresh `GitBranch('topic', 'msg')` with all-default flags. -/
def gbTopic : GitBranch := GitBranch.init "topic" "msg" true false true

/-- A storage world where every boto call succeeds (`repr` taken as the
identity for concreteness). -/
def wGsOk : GsWorld :=
  { pyRepr := fun s => s
    connectErr := fun _ => none
    deleteErr := fun _ _ => none
    uploadErr := fun _ _ _ => none
    downloadErr := fun _ _ => none
    aclFetchErr := fun _ _ => none
    aclWriteErr := fun _ _ => none
    listing := fun _ _ => .ok [] }

/-- A store holding one object whose ACL grants `READ` to the
`chromium.org` domain group. -/
def stExample : GsStore :=
  [(("bkt", "pth"), [mkAclEntry .groupByDomain .domain "chromium.org" "READ"])]

/-- The store after overwriting that grant with `FULL_CONTROL`. -/
def stAfter : GsStore :=
  match set_acl wGsOk stExample "bkt" "pth" .groupByDomain "chromium.org"
      (some "FULL_CONTROL") with
  | .ok st => st
  | .error _ => []

/-- The listing items used by the C5 witness: one subdirectory `subdir` and
one file `file1` under the prefix `gs_utils_test/`. -/
def itemsExample : List BotoItem :=
  ["subdir"].map (fun d =>
      BotoItem.pfx (listingPfx (some "gs_utils_test") ++ d ++ "/"))
    ++ ["file1"].map (fun f => BotoItem.key (posixpathJoin "gs_utils_test" f))

/-- A world whose listing yields `itemsExample`. -/
def wList : GsWorld :=
  { wGsOk with listing := fun _ _ => Except.ok itemsExample }

/-- A world whose ACL fetch for `("bkt", "pth")` raises `BotoServerError`
with body `"boom"`. -/
def wFetchBoom : GsWorld :=
  { wGsOk with aclFetchErr := fun _ _ => some "boom" }

/-- A world where the delete, upload, download, ACL-fetch and listing calls
all raise `BotoServerError` (with bodies `D`, `U`, `W`, `F`, `L`). -/
def wGsErr : GsWorld :=
  { pyRepr := fun s => s
    connectErr := fun _ => none
    deleteErr := fun _ _ => some "D"
    uploadErr := fun _ _ _ => some "U"
    downloadErr := fun _ _ => some "W"
    aclFetchErr := fun _ _ => some "F"
    aclWriteErr := fun _ _ => none
    listing := fun _ _ => .error "L" }

/-- A world whose listing yields one file `f1` under any prefix and whose
download call raises `BotoServerError` with body `W`. -/
def wDlErr : GsWorld :=
  { wGsOk with
    downloadErr := fun _ _ => some "W"
    listing := fun _ _ => Except.ok [BotoItem.key (posixpathJoin "sd" "f1")] }

/-! ## Helper lemmas: git wrapper -/

/-- A successful `RunResult` carries some output. -/
lemma RunResult.isOk_exists {r : RunResult} (h : r.isOk = true) :
    ∃ o, r = .ok o := by
  cases r with
  | ok o => exact ⟨o, rfl⟩
  | fail o => simp [RunResult.isOk] at h

/-- Under a benign commit step, `commit_and_upload` increments the patch-set
counter by exactly one and its trace continues with the commit command
followed by the upload command for the incremented counter. -/
lemma commit_and_upload_benign (w : GitWorld) (git : String) (gb : GitBranch)
    (ucq : Bool) (tr : Trace) (h : commitBenign w tr git gb = true) :
    (GitBranch.commit_and_upload w git gb ucq tr).2.1
        = { gb with patch_set := gb.patch_set + 1 }
      ∧ List.IsPrefix
        (tr ++ [[git, "commit", "-a", "-m", gb.commit_msg],
                uploadCmd git (gb.patch_set + 1) ucq])
        (GitBranch.commit_and_upload w git gb ucq tr).2.2 := by
  unfold commitBenign at h
  cases hc : w.run tr [git, "commit", "-a", "-m", gb.commit_msg] with
  | ok o =>
    simp only [GitBranch.commit_and_upload, shRun, hc]
    cases hu : w.run (tr ++ [[git, "commit", "-a", "-m", gb.commit_msg]])
        (uploadCmd git (gb.patch_set + 1) ucq) with
    | ok o2 =>
      cases hi : w.run ((tr ++ [[git, "commit", "-a", "-m", gb.commit_msg]])
          ++ [uploadCmd git (gb.patch_set + 1) ucq]) [git, "cl", "issue"] with
      | ok o3 =>
        cases hp : parseIssueUrl (pyRstrip o3) <;>
          simp [hu, hi, hp, List.IsPrefix, List.append_assoc]
      | fail o3 =>
        simp [hu, hi, List.IsPrefix, List.append_assoc]
    | fail o2 =>
      simp [hu, List.IsPrefix, List.append_assoc]
  | fail o =>
    rw [hc] at h
    have hpy : pyIn "nothing to commit" o = true := h
    simp only [GitBranch.commit_and_upload, shRun, hc, hpy]
    cases hu : w.run (tr ++ [[git, "commit", "-a", "-m", gb.commit_msg]])
        (uploadCmd git (gb.patch_set + 1) ucq) with
    | ok o2 =>
      cases hi : w.run ((tr ++ [[git, "commit", "-a", "-m", gb.commit_msg]])
          ++ [uploadCmd git (gb.patch_set + 1) ucq]) [git, "cl", "issue"] with
      | ok o3 =>
        cases hp : parseIssueUrl (pyRstrip o3) <;>
          simp [hu, hi, hp, hpy, List.IsPrefix, List.append_assoc]
      | fail o3 =>
        simp [hu, hi, hpy, List.IsPrefix, List.append_assoc]
    | fail o2 =>
      simp [hu, hpy, List.IsPrefix, List.append_assoc]

/-- Each call to `commit_and_upload` leaves the counter unchanged (commit failure
propagated) or increments it by exactly one; it never decrements it. -/
lemma commit_and_upload_patch_set_cases (w : GitWorld) (git : String)
    (gb : GitBranch) (ucq : Bool) (tr : Trace) :
    (GitBranch.commit_and_upload w git gb ucq tr).2.1 = gb
      ∨ (GitBranch.commit_and_upload w git gb ucq tr).2.1
          = { gb with patch_set := gb.patch_set + 1 } := by
  cases hc : w.run tr [git, "commit", "-a", "-m", gb.commit_msg] with
  | ok o =>
    simp only [GitBranch.commit_and_upload, shRun, hc]
    cases hu : w.run (tr ++ [[git, "commit", "-a", "-m", gb.commit_msg]])
        (uploadCmd git (gb.patch_set + 1) ucq) with
    | ok o2 =>
      cases hi : w.run ((tr ++ [[git, "commit", "-a", "-m", gb.commit_msg]])
          ++ [uploadCmd git (gb.patch_set + 1) ucq]) [git, "cl", "issue"] with
      | ok o3 => cases hp : parseIssueUrl (pyRstrip o3) <;> simp [hu, hi, hp]
      | fail o3 => simp [hu, hi]
    | fail o2 => simp [hu]
  | fail o =>
    by_cases hpy : pyIn "nothing to commit" o = true
    · simp only [GitBranch.commit_and_upload, shRun, hc, hpy]
      cases hu : w.run (tr ++ [[git, "commit", "-a", "-m", gb.commit_msg]])
          (uploadCmd git (gb.patch_set + 1) ucq) with
      | ok o2 =>
        cases hi : w.run ((tr ++ [[git, "commit", "-a", "-m", gb.commit_msg]])
            ++ [uploadCmd git (gb.patch_set + 1) ucq]) [git, "cl", "issue"] with
        | ok o3 => cases hp : parseIssueUrl (pyRstrip o3) <;> simp [hu, hi, hp]
        | fail o3 => simp [hu, hi]
      | fail o2 => simp [hu]
    · simp only [GitBranch.commit_and_upload, shRun, hc]
      simp [hpy]

/-! ## Claims about `git_utils.py` -/

/-- C8: `IsMerge(commit)` returns `True` exactly when the full hash of the
commit differs from the first output line of the
`rev-parse <commit> --max-count=1 --no-merges` invocation: with the two
commands answering `o1` (the no-merges query, issued first) and `o2` (the
`--verify` full-hash query), the result is
`rstrip(o2) != o1.split('\n')[0]`. -/
theorem c8_isMerge_compares_full_hash_with_first_line
    (w : GitWorld) (tr : Trace) (git commit o1 o2 : String)
    (h1 : w.run tr [git, "rev-parse", commit, "--max-count=1", "--no-merges"]
        = .ok o1)
    (h2 : w.run (tr ++ [[git, "rev-parse", commit, "--max-count=1", "--no-merges"]])
        [git, "rev-parse", "--verify", commit] = .ok o2) :
    IsMerge w tr git commit =
      (.ok (decide (pyRstrip o2 ≠ firstLine o1)),
       tr ++ [[git, "rev-parse", commit, "--max-count=1", "--no-merges"],
              [git, "rev-parse", "--verify", commit]]) := by
  simp [IsMerge, FullHash, shRun, Except.map, h1, h2]

/-- Witness for C8 at a concrete world: both rev-parse calls answer `"out"`,
so `IsMerge` returns `False` (the hashes agree). -/
theorem c8_isMerge_witness :
    (wAllOk.run [] ["git", "rev-parse", "c", "--max-count=1", "--no-merges"]
        = .ok "out")
    ∧ IsMerge wAllOk [] "git" "c" =
      (.ok (decide (pyRstrip "out" ≠ firstLine "out")),
       [["git", "rev-parse", "c", "--max-count=1", "--no-merges"],
        ["git", "rev-parse", "--verify", "c"]]) :=
  ⟨rfl, c8_isMerge_compares_full_hash_with_first_line wAllOk [] "git" "c"
    "out" "out" rfl rfl⟩

/-- C7: when its commands succeed, `GitBranch.__enter__` issues exactly, in
order: a hard reset to HEAD, a checkout of master, the `git branch` listing,
a branch deletion precisely when the branch name occurs (as a substring) in
that listing's output, and the creation of a fresh branch tracking
`origin/master`. -/
theorem c7_enter_steps (w : GitWorld) (tr : Trace) (git : String)
    (gb : GitBranch) (branches : String)
    (hok : ∀ h c, (w.run h c).isOk = true)
    (hbr : w.run (tr ++ [[git, "reset", "--hard", "HEAD"], [git, "checkout", "master"]])
        [git, "branch"] = .ok branches) :
    GitBranch.enter w git gb tr =
      (.ok (),
       tr ++ [[git, "reset", "--hard", "HEAD"],
              [git, "checkout", "master"],
              [git, "branch"]]
          ++ (if pyIn gb.branch_name branches
              then [[git, "branch", "-D", gb.branch_name]] else [])
          ++ [[git, "checkout", "-b", gb.branch_name, "-t", "origin/master"]]) := by
  obtain ⟨o1, ho1⟩ := RunResult.isOk_exists (hok tr [git, "reset", "--hard", "HEAD"])
  obtain ⟨o2, ho2⟩ := RunResult.isOk_exists
    (hok (tr ++ [[git, "reset", "--hard", "HEAD"]]) [git, "checkout", "master"])
  by_cases hp : pyIn gb.branch_name branches = true
  · obtain ⟨o4, ho4⟩ := RunResult.isOk_exists
      (hok (tr ++ [[git, "reset", "--hard", "HEAD"], [git, "checkout", "master"],
                   [git, "branch"]])
        [git, "branch", "-D", gb.branch_name])
    obtain ⟨o5, ho5⟩ := RunResult.isOk_exists
      (hok (tr ++ [[git, "reset", "--hard", "HEAD"], [git, "checkout", "master"],
                   [git, "branch"], [git, "branch", "-D", gb.branch_name]])
        [git, "checkout", "-b", gb.branch_name, "-t", "origin/master"])
    simp [GitBranch.enter, shRun, ho1, ho2, hbr, hp, ho4, ho5]
  · obtain ⟨o5, ho5⟩ := RunResult.isOk_exists
      (hok (tr ++ [[git, "reset", "--hard", "HEAD"], [git, "checkout", "master"],
                   [git, "branch"]])
        [git, "checkout", "-b", gb.branch_name, "-t", "origin/master"])
    simp [GitBranch.enter, shRun, ho1, ho2, hbr, hp, ho5]

/-- Witness for C7 at a concrete world: every command answers `"out"`, the
branch name `"topic"` does not occur in `"out"`, so no deletion is issued. -/
theorem c7_enter_steps_witness :
    (∀ h c, (wAllOk.run h c).isOk = true)
    ∧ GitBranch.enter wAllOk "git" gbTopic [] =
      (.ok (),
       [["git", "reset", "--hard", "HEAD"],
        ["git", "checkout", "master"],
        ["git", "branch"]]
          ++ (if pyIn gbTopic.branch_name "out"
              then [["git", "branch", "-D", gbTopic.branch_name]] else [])
          ++ [["git", "checkout", "-b", gbTopic.branch_name, "-t", "origin/master"]]) :=
  ⟨fun _ _ => rfl,
   c7_enter_steps wAllOk [] "git" gbTopic "out" (fun _ _ => rfl) rfl⟩

/-- C6: when the commit command inside `commit_and_upload` fails, the failure
propagates (with the identical exception and no further commands issued, the
counter untouched) if and only if its captured output does not contain
`'nothing to commit'`; when the output does contain it, the failure is
swallowed and the upload command is still issued. -/
theorem c6_nothing_to_commit_swallowed (w : GitWorld) (tr : Trace)
    (git : String) (gb : GitBranch) (ucq : Bool) (o : String)
    (h : w.run tr [git, "commit", "-a", "-m", gb.commit_msg] = .fail o) :
    (pyIn "nothing to commit" o = false →
      GitBranch.commit_and_upload w git gb ucq tr
        = (.error (.commandFailed o), gb,
           tr ++ [[git, "commit", "-a", "-m", gb.commit_msg]]))
    ∧ (pyIn "nothing to commit" o = true →
      List.IsPrefix
        (tr ++ [[git, "commit", "-a", "-m", gb.commit_msg],
                uploadCmd git (gb.patch_set + 1) ucq])
        (GitBranch.commit_and_upload w git gb ucq tr).2.2) := by
  constructor
  · intro hpy
    simp [GitBranch.commit_and_upload, shRun, h, hpy]
  · intro hpy
    refine (commit_and_upload_benign w git gb ucq tr ?_).2
    unfold commitBenign
    rw [h]
    exact hpy

/-- Witness for C6 at a concrete world whose commit command fails with a
`'nothing to commit'` output. -/
theorem c6_nothing_to_commit_swallowed_witness :
    (wCommitNothing.run [] ["git", "commit", "-a", "-m", "msg"]
        = .fail "On branch topic nothing to commit, working tree clean")
    ∧ ((pyIn "nothing to commit"
          "On branch topic nothing to commit, working tree clean" = false →
        GitBranch.commit_and_upload wCommitNothing "git" gbTopic false []
          = (.error (.commandFailed
              "On branch topic nothing to commit, working tree clean"), gbTopic,
             [] ++ [["git", "commit", "-a", "-m", "msg"]]))
      ∧ (pyIn "nothing to commit"
          "On branch topic nothing to commit, working tree clean" = true →
        List.IsPrefix
          ([] ++ [["git", "commit", "-a", "-m", "msg"],
                  uploadCmd "git" (gbTopic.patch_set + 1) false])
          (GitBranch.commit_and_upload wCommitNothing "git" gbTopic false []).2.2)) :=
  ⟨rfl, c6_nothing_to_commit_swallowed wCommitNothing [] "git" gbTopic false
    "On branch topic nothing to commit, working tree clean" rfl⟩

/-- C4: under a benign commit step, `commit_and_upload` increments the
patch-set counter by exactly one and issues the upload command for the
incremented counter right after the commit command; the upload command for
counter value `1` (the first call) carries no patch-set title, and for every
counter value `n ≥ 2` it carries the title `'Patch set n'`. -/
theorem c4_patch_set_numbering (w : GitWorld) (tr : Trace) (git : String)
    (gb : GitBranch) (ucq : Bool)
    (h : commitBenign w tr git gb = true) :
    (GitBranch.commit_and_upload w git gb ucq tr).2.1.patch_set
        = gb.patch_set + 1
    ∧ List.IsPrefix
        (tr ++ [[git, "commit", "-a", "-m", gb.commit_msg],
                uploadCmd git (gb.patch_set + 1) ucq])
        (GitBranch.commit_and_upload w git gb ucq tr).2.2
    ∧ uploadCmd git 1 ucq
        = [git, "cl", "upload", "-f", "--bypass-hooks", "--bypass-watchlists"]
          ++ (if ucq then ["--use-commit-queue"] else [])
    ∧ (∀ n, 2 ≤ n → uploadCmd git n ucq
        = [git, "cl", "upload", "-f", "--bypass-hooks", "--bypass-watchlists"]
          ++ ["-t", "Patch set " ++ toString n]
          ++ (if ucq then ["--use-commit-queue"] else [])) := by
  obtain ⟨h1, h2⟩ := commit_and_upload_benign w git gb ucq tr h
  refine ⟨by rw [h1], h2, by simp [uploadCmd], fun n hn => ?_⟩
  have hlt : 1 < n := hn
  simp [uploadCmd, hlt]

/-- Witness for C4: a second call (counter already `1`) in an all-succeeding
world is tagged `'Patch set 2'`. -/
theorem c4_patch_set_numbering_witness :
    (commitBenign wAllOk [] "git" { gbTopic with patch_set := 1 } = true)
    ∧ ((GitBranch.commit_and_upload wAllOk "git"
          { gbTopic with patch_set := 1 } false []).2.1.patch_set = 1 + 1
      ∧ List.IsPrefix
          ([] ++ [["git", "commit", "-a", "-m", "msg"], uploadCmd "git" (1 + 1) false])
          (GitBranch.commit_and_upload wAllOk "git"
            { gbTopic with patch_set := 1 } false []).2.2
      ∧ uploadCmd "git" 1 false
          = ["git", "cl", "upload", "-f", "--bypass-hooks", "--bypass-watchlists"]
            ++ (if false then ["--use-commit-queue"] else [])
      ∧ (∀ n, 2 ≤ n → uploadCmd "git" n false
          = ["git", "cl", "upload", "-f", "--bypass-hooks", "--bypass-watchlists"]
            ++ ["-t", "Patch set " ++ toString n]
            ++ (if false then ["--use-commit-queue"] else []))) :=
  ⟨rfl, c4_patch_set_numbering wAllOk [] "git" { gbTopic with patch_set := 1 }
    false rfl⟩

/-- C9: the counter is incremented before the upload command runs, so when
the upload command fails the call raises that failure yet keeps the
incremented counter; a subsequent benign call from the resulting state issues
the upload tagged with the next number (skipping the failed attempt); and no
call ever decreases the counter. -/
theorem c9_failed_upload_consumes_number (w : GitWorld) (tr : Trace)
    (git : String) (gb : GitBranch) (ucq : Bool) (o : String)
    (hben : commitBenign w tr git gb = true)
    (hup : w.run (tr ++ [[git, "commit", "-a", "-m", gb.commit_msg]])
        (uploadCmd git (gb.patch_set + 1) ucq) = .fail o) :
    GitBranch.commit_and_upload w git gb ucq tr
      = (.error (.commandFailed o), { gb with patch_set := gb.patch_set + 1 },
         tr ++ [[git, "commit", "-a", "-m", gb.commit_msg],
                uploadCmd git (gb.patch_set + 1) ucq])
    ∧ (∀ w1 tr1 ucq1,
        commitBenign w1 tr1 git { gb with patch_set := gb.patch_set + 1 } = true →
        List.IsPrefix
          (tr1 ++ [[git, "commit", "-a", "-m", gb.commit_msg],
                   uploadCmd git (gb.patch_set + 2) ucq1])
          (GitBranch.commit_and_upload w1 git
            { gb with patch_set := gb.patch_set + 1 } ucq1 tr1).2.2)
    ∧ (∀ w1 tr1 ucq1 (gb1 : GitBranch),
        gb1.patch_set ≤ (GitBranch.commit_and_upload w1 git gb1 ucq1 tr1).2.1.patch_set) := by
  refine ⟨?_, ?_, ?_⟩
  · unfold commitBenign at hben
    cases hc : w.run tr [git, "commit", "-a", "-m", gb.commit_msg] with
    | ok o1 =>
      simp [GitBranch.commit_and_upload, shRun, hc, hup]
    | fail o1 =>
      rw [hc] at hben
      have hpy : pyIn "nothing to commit" o1 = true := hben
      simp [GitBranch.commit_and_upload, shRun, hc, hpy, hup]
  · intro w1 tr1 ucq1 hb1
    exact (commit_and_upload_benign w1 git _ ucq1 tr1 hb1).2
  · intro w1 tr1 ucq1 gb1
    rcases commit_and_upload_patch_set_cases w1 git gb1 ucq1 tr1 with h | h <;>
      rw [h] <;> simp

/-- The `finally` block always issues the checkout of master; the branch
deletion follows exactly when that checkout succeeded and the
`delete_when_finished` flag is set. -/
lemma exitCleanup_trace (w : GitWorld) (git : String) (gb : GitBranch)
    (bodyRes : Except GitExn Unit) (tr : Trace) :
    (GitBranch.exitCleanup w git gb bodyRes tr).2
      = tr ++ [[git, "checkout", "master"]]
        ++ (if (w.run tr [git, "checkout", "master"]).isOk
              && gb.delete_when_finished
            then [[git, "branch", "-D", gb.branch_name]] else []) := by
  cases hc : w.run tr [git, "checkout", "master"] with
  | ok o =>
    by_cases hd : gb.delete_when_finished
    · cases hr : w.run (tr ++ [[git, "checkout", "master"]])
          [git, "branch", "-D", gb.branch_name] <;>
        simp [GitBranch.exitCleanup, shRun, hc, hd, hr, RunResult.isOk]
    · simp [GitBranch.exitCleanup, shRun, hc, hd, RunResult.isOk]
  | fail o =>
    simp [GitBranch.exitCleanup, shRun, hc, RunResult.isOk]

/-- A call to `commit_and_upload` changes no instance field except
`patch_set`. -/
lemma commit_and_upload_preserves_flags (w : GitWorld) (git : String)
    (gb : GitBranch) (ucq : Bool) (tr : Trace) :
    (GitBranch.commit_and_upload w git gb ucq tr).2.1.branch_name = gb.branch_name
    ∧ (GitBranch.commit_and_upload w git gb ucq tr).2.1.delete_when_finished
        = gb.delete_when_finished := by
  rcases commit_and_upload_patch_set_cases w git gb ucq tr with h | h <;>
    rw [h] <;> exact ⟨rfl, rfl⟩

/-- C1 (amended): when the `upload` flag is true, `__exit__` always issues
the checkout of master after the body — whether or not the body raised — and
issues the branch deletion exactly when `delete_when_finished` is set and the
checkout succeeded; when the `upload` flag is false, `__exit__` issues no
commands at all (the cleanup is nested under `if self._upload:`), leaving the
repository on the working branch. -/
theorem c1_exit_cleanup_only_when_upload (w : GitWorld) (git : String)
    (gb : GitBranch) (excPresent : Bool) (tr : Trace) :
    (gb.upload = false →
      GitBranch.exit w git gb excPresent tr = (.ok (), gb, tr))
    ∧ (gb.upload = true → excPresent = true →
      (GitBranch.exit w git gb excPresent tr).2.2
        = tr ++ [[git, "checkout", "master"]]
          ++ (if (w.run tr [git, "checkout", "master"]).isOk
                && gb.delete_when_finished
              then [[git, "branch", "-D", gb.branch_name]] else []))
    ∧ (gb.upload = true → excPresent = false →
      (GitBranch.exit w git gb excPresent tr).2.2
        = (GitBranch.commit_and_upload w git gb gb.commit_queue tr).2.2
          ++ [[git, "checkout", "master"]]
          ++ (if (w.run (GitBranch.commit_and_upload w git gb gb.commit_queue tr).2.2
                    [git, "checkout", "master"]).isOk
                && gb.delete_when_finished
              then [[git, "branch", "-D", gb.branch_name]] else [])) := by
  refine ⟨?_, ?_, ?_⟩
  · intro h
    simp [GitBranch.exit, h]
  · intro hu he
    subst he
    simp [GitBranch.exit, hu, exitCleanup_trace]
  · intro hu he
    subst he
    rcases hq : GitBranch.commit_and_upload w git gb gb.commit_queue tr
      with ⟨r, gb1, tr1⟩
    obtain ⟨hbn, hdf⟩ := commit_and_upload_preserves_flags w git gb gb.commit_queue tr
    rw [hq] at hbn hdf
    simp at hbn hdf
    simp [GitBranch.exit, hu, hq, exitCleanup_trace, hbn, hdf]

/-- Counterexample to C1 as stated: with `upload=False` (and
`delete_when_finished=True`), `__exit__` runs no commands at all — in
particular it neither checks out master nor deletes the working branch, even
though the claim promises both for every combination of constructor flags. -/
theorem c1_counterexample :
    GitBranch.exit wAllOk "git" (GitBranch.init "topic" "msg" false false true)
        false []
      = (.ok (), GitBranch.init "topic" "msg" false false true, [])
    ∧ (GitBranch.init "topic" "msg" false false true).delete_when_finished = true
    ∧ ["git", "checkout", "master"]
        ∉ (GitBranch.exit wAllOk "git"
            (GitBranch.init "topic" "msg" false false true) false []).2.2 := by
  refine ⟨rfl, rfl, ?_⟩
  intro h
  simp [GitBranch.exit, GitBranch.init] at h

/-- Witness for the amended C1: with `upload=True` and an exception in
flight, the cleanup still checks out master and (the checkout succeeding,
the flag being set) deletes the branch. -/
theorem c1_exit_cleanup_witness :
    (gbTopic.upload = true)
    ∧ (GitBranch.exit wAllOk "git" gbTopic true []).2.2
        = [] ++ [["git", "checkout", "master"]]
          ++ (if (wAllOk.run [] ["git", "checkout", "master"]).isOk
                && gbTopic.delete_when_finished
              then [["git", "branch", "-D", gbTopic.branch_name]] else []) :=
  ⟨rfl,
   (c1_exit_cleanup_only_when_upload wAllOk "git" gbTopic true []).2.1 rfl rfl⟩

/-! ## Helper lemmas: ACL core -/

/-- A freshly built ACL entry matches the identifier it was built for. -/
lemma aclMatches_mkAclEntry_self (t : IdType) (v p : String) :
    aclMatches t v (mkAclEntry t (FIELD_BY_ID_TYPE t) v p) = true := by
  cases t <;> simp [aclMatches, mkAclEntry, FIELD_BY_ID_TYPE, Scope.getattr]

/-- A freshly built ACL entry matches no other identifier. -/
lemma aclMatches_mkAclEntry_other (t t' : IdType) (v v' p : String)
    (h : ¬(t' = t ∧ v' = v)) :
    aclMatches t' v' (mkAclEntry t (FIELD_BY_ID_TYPE t) v p) = false := by
  by_cases ht : t' = t
  · subst ht
    have hv : v ≠ v' := fun hv => h ⟨rfl, hv.symm⟩
    cases t' <;>
      simp [aclMatches, mkAclEntry, FIELD_BY_ID_TYPE, Scope.getattr, hv]
  · cases t' <;> cases t <;>
      simp_all [aclMatches, mkAclEntry, FIELD_BY_ID_TYPE, Scope.getattr]

/-- Removing the unique filter match leaves no matches. -/
lemma filter_listRemove_of_filter_eq_single (l : List AclEntry)
    (f : AclEntry → Bool) (e : AclEntry) (h : l.filter f = [e]) :
    (listRemove l e).filter f = [] := by
  induction l with
  | nil => simp [listRemove]
  | cons a rest ih =>
    by_cases hf : f a
    · rw [List.filter_cons_of_pos hf] at h
      injection h with h1 h2
      subst h1
      simp [listRemove, h2]
    · have hfa : f a = false := by simpa using hf
      rw [List.filter_cons_of_neg (by simp [hfa])] at h
      have hmem : e ∈ rest.filter f := by rw [h]; exact List.mem_singleton_self e
      have hfe : f e = true := (List.mem_filter.mp hmem).2
      have hae : a ≠ e := fun hae => by rw [hae, hfe] at hfa; cases hfa
      simp [listRemove, hae, hfa, ih h]

/-- Removing an element with `listRemove` yields a sublist. -/
lemma listRemove_sublist (l : List AclEntry) (e : AclEntry) :
    List.Sublist (listRemove l e) l := by
  induction l with
  | nil => simp [listRemove]
  | cons a rest ih =>
    by_cases hae : a = e
    · subst hae
      simp only [listRemove, if_pos rfl]
      exact List.sublist_cons_self a rest
    · simp only [listRemove, if_neg hae]
      exact ih.cons₂ a

/-- The helper `writeAclWithNew` never raises the assertion error. -/
lemma writeAclWithNew_ne_assertFail (w : GsWorld) (st : GsStore)
    (bucket path : String) (acls : List AclEntry) (t : IdType) (field : AclField)
    (v : String) (perm : Option String) :
    writeAclWithNew w st bucket path acls t field v perm ≠ .error .assertFail := by
  unfold writeAclWithNew writeAcl
  cases perm <;> cases w.aclWriteErr bucket path <;> simp

/-- Reading back the pair just written. -/
lemma lookupAcl_updateStore_self (st : GsStore) (bucket path : String)
    (entries : List AclEntry) :
    lookupAcl (updateStore st bucket path entries) bucket path = entries := by
  simp [lookupAcl, updateStore, List.lookup]

/-- Writing one pair leaves every other pair's ACL unchanged. -/
lemma lookupAcl_updateStore_other (st : GsStore) (bucket path b1 p1 : String)
    (entries : List AclEntry) (h : ¬(b1 = bucket ∧ p1 = path)) :
    lookupAcl (updateStore st bucket path entries) b1 p1 = lookupAcl st b1 p1 := by
  have hne : ((b1, p1) == (bucket, path)) = false := by
    rw [beq_eq_false_iff_ne]
    intro hq
    injection hq with hb hp
    exact h ⟨hb, hp⟩
  simp [lookupAcl, updateStore, List.lookup, hne]

/-- The fresh-entry list filters to itself for its own identifier. -/
lemma filter_newEntryList_self (t : IdType) (v : String) (perm : Option String) :
    (newEntryList t v perm).filter (aclMatches t v) = newEntryList t v perm := by
  cases perm with
  | some p => simp [newEntryList, aclMatches_mkAclEntry_self]
  | none => simp [newEntryList]

/-- The fresh-entry list filters to nothing for any other identifier. -/
lemma filter_newEntryList_other (t t1 : IdType) (v v1 : String)
    (perm : Option String) (h : ¬(t1 = t ∧ v1 = v)) :
    (newEntryList t v perm).filter (aclMatches t1 v1) = [] := by
  cases perm with
  | some p => simp [newEntryList, aclMatches_mkAclEntry_other t t1 v v1 p h]
  | none => simp [newEntryList]

/-- The fresh-entry list has at most one element. -/
lemma length_newEntryList_le_one (t : IdType) (v : String) (perm : Option String) :
    (newEntryList t v perm).length ≤ 1 := by
  cases perm <;> simp [newEntryList]

/-- Inversion of a successful `set_acl`: the connection and the ACL fetch
succeeded, and the written-back list is a match-free sublist of the fetched
one followed by the optional fresh entry. -/
lemma set_acl_ok_inv (w : GsWorld) (st : GsStore) (bucket path : String)
    (t : IdType) (v : String) (perm : Option String) (st1 : GsStore)
    (h : set_acl w st bucket path t v perm = .ok st1) :
    w.connectErr bucket = none
    ∧ w.aclFetchErr bucket path = none
    ∧ ∃ acls1,
        st1 = updateStore st bucket path (acls1 ++ newEntryList t v perm)
        ∧ acls1.filter (aclMatches t v) = []
        ∧ List.Sublist acls1 (lookupAcl st bucket path) := by
  unfold set_acl connectToBucket fetchAcl at h
  cases hc : w.connectErr bucket with
  | some body => rw [hc] at h; simp at h
  | none =>
  rw [hc] at h
  cases hf : w.aclFetchErr bucket path with
  | some body => rw [hf] at h; simp at h
  | none =>
  rw [hf] at h
  simp only at h
  refine ⟨rfl, rfl, ?_⟩
  cases hm : (lookupAcl st bucket path).filter (aclMatches t v) with
  | nil =>
    rw [hm] at h
    refine ⟨lookupAcl st bucket path, ?_, hm, List.Sublist.refl _⟩
    unfold writeAclWithNew writeAcl at h
    cases perm with
    | some p =>
      cases hw : w.aclWriteErr bucket path with
      | some body => rw [hw] at h; simp at h
      | none => rw [hw] at h; simp at h; rw [← h]; simp [newEntryList]
    | none =>
      cases hw : w.aclWriteErr bucket path with
      | some body => rw [hw] at h; simp at h
      | none => rw [hw] at h; simp at h; rw [← h]; simp [newEntryList]
  | cons e rest =>
    cases rest with
    | nil =>
      rw [hm] at h
      refine ⟨listRemove (lookupAcl st bucket path) e, ?_,
        filter_listRemove_of_filter_eq_single _ _ _ hm,
        listRemove_sublist _ _⟩
      unfold writeAclWithNew writeAcl at h
      cases perm with
      | some p =>
        cases hw : w.aclWriteErr bucket path with
        | some body => rw [hw] at h; simp at h
        | none => rw [hw] at h; simp at h; rw [← h]; simp [newEntryList]
      | none =>
        cases hw : w.aclWriteErr bucket path with
        | some body => rw [hw] at h; simp at h
        | none => rw [hw] at h; simp at h; rw [← h]; simp [newEntryList]
    | cons e2 rest2 =>
      rw [hm] at h
      simp at h

/-- Evaluation of `get_acl` once connection and fetch succeed. -/
lemma get_acl_eval (w : GsWorld) (st : GsStore) (bucket path : String)
    (t : IdType) (v : String)
    (hc : w.connectErr bucket = none) (hf : w.aclFetchErr bucket path = none) :
    get_acl w st bucket path t v =
      match (lookupAcl st bucket path).filter (aclMatches t v) with
      | [] => .ok none
      | [entry] => .ok (some entry.permission)
      | _ => .error .assertFail := by
  unfold get_acl connectToBucket fetchAcl
  rw [hc, hf]

/-- Evaluation of `set_acl` once connection and fetch succeed. -/
lemma set_acl_eval (w : GsWorld) (st : GsStore) (bucket path : String)
    (t : IdType) (v : String) (perm : Option String)
    (hc : w.connectErr bucket = none) (hf : w.aclFetchErr bucket path = none) :
    set_acl w st bucket path t v perm =
      match (lookupAcl st bucket path).filter (aclMatches t v) with
      | [] => writeAclWithNew w st bucket path (lookupAcl st bucket path)
          t (FIELD_BY_ID_TYPE t) v perm
      | [entry] => writeAclWithNew w st bucket path
          (listRemove (lookupAcl st bucket path) entry)
          t (FIELD_BY_ID_TYPE t) v perm
      | _ => .error .assertFail := by
  unfold set_acl connectToBucket fetchAcl
  rw [hc, hf]

/-- C3: after a successful `set_acl` for an identifier, `get_acl` for that
identifier returns exactly the permission that was set — the fresh permission
for a non-none `set`, `none` after a `set` with `PERMISSION_NONE` (any
previous entry having been removed either way); the resulting ACL holds at
most one entry for the identifier; and `get_acl` returns `none` whenever no
entry matches. -/
theorem c3_set_acl_get_acl_roundtrip (w : GsWorld) (st : GsStore)
    (bucket path : String) (t : IdType) (v : String) (perm : Option String)
    (st1 : GsStore)
    (h : set_acl w st bucket path t v perm = .ok st1) :
    get_acl w st1 bucket path t v = .ok perm
    ∧ ((lookupAcl st1 bucket path).filter (aclMatches t v)).length ≤ 1
    ∧ ((lookupAcl st bucket path).filter (aclMatches t v) = [] →
        get_acl w st bucket path t v = .ok none) := by
  obtain ⟨hc, hf, acls1, hst1, hfil, hsub⟩ :=
    set_acl_ok_inv w st bucket path t v perm st1 h
  have hfilter : (lookupAcl st1 bucket path).filter (aclMatches t v)
      = newEntryList t v perm := by
    rw [hst1, lookupAcl_updateStore_self, List.filter_append, hfil,
      filter_newEntryList_self]
    simp
  refine ⟨?_, ?_, ?_⟩
  · rw [get_acl_eval w st1 bucket path t v hc hf, hfilter]
    cases perm with
    | some p => simp [newEntryList, mkAclEntry]
    | none => simp [newEntryList]
  · rw [hfilter]
    exact length_newEntryList_le_one t v perm
  · intro hnil
    rw [get_acl_eval w st bucket path t v hc hf, hnil]

/-- C10: with the connection and the ACL fetch succeeding, `get_acl` and
`set_acl` raise the assertion error exactly when the fetched ACL already
holds two or more entries matching the requested identifier; and a successful
`set_acl` preserves the invariant that every object's ACL holds at most one
entry per identifier (it removes the matching entry before appending at most
one new one). -/
theorem c10_at_most_one_entry_per_identifier (w : GsWorld) (st : GsStore)
    (bucket path : String) (t : IdType) (v : String) (perm : Option String)
    (hc : w.connectErr bucket = none) (hf : w.aclFetchErr bucket path = none) :
    (get_acl w st bucket path t v = .error .assertFail
      ↔ 2 ≤ ((lookupAcl st bucket path).filter (aclMatches t v)).length)
    ∧ (set_acl w st bucket path t v perm = .error .assertFail
      ↔ 2 ≤ ((lookupAcl st bucket path).filter (aclMatches t v)).length)
    ∧ (∀ st1, set_acl w st bucket path t v perm = .ok st1 →
        (∀ b1 p1 t1 v1,
          ((lookupAcl st b1 p1).filter (aclMatches t1 v1)).length ≤ 1) →
        (∀ b1 p1 t1 v1,
          ((lookupAcl st1 b1 p1).filter (aclMatches t1 v1)).length ≤ 1)) := by
  refine ⟨?_, ?_, ?_⟩
  · rw [get_acl_eval w st bucket path t v hc hf]
    cases hm : (lookupAcl st bucket path).filter (aclMatches t v) with
    | nil => simp
    | cons e rest =>
      cases rest with
      | nil => simp
      | cons e2 rest2 =>
        simp only [List.length_cons]
        constructor
        · intro _; omega
        · intro _; trivial
  · rw [set_acl_eval w st bucket path t v perm hc hf]
    cases hm : (lookupAcl st bucket path).filter (aclMatches t v) with
    | nil =>
      simp only [List.length_nil]
      constructor
      · intro hx
        exact absurd hx (writeAclWithNew_ne_assertFail w st bucket path _ t _ v perm)
      · omega
    | cons e rest =>
      cases rest with
      | nil =>
        simp only [List.length_singleton]
        constructor
        · intro hx
          exact absurd hx (writeAclWithNew_ne_assertFail w st bucket path _ t _ v perm)
        · omega
      | cons e2 rest2 =>
        simp only [List.length_cons]
        constructor
        · intro _; omega
        · intro _; trivial
  · intro st1 hok hInv b1 p1 t1 v1
    obtain ⟨hc1, hf1, acls1, hst1, hfil, hsub⟩ :=
      set_acl_ok_inv w st bucket path t v perm st1 hok
    by_cases hbp : b1 = bucket ∧ p1 = path
    · obtain ⟨rfl, rfl⟩ := hbp
      rw [hst1, lookupAcl_updateStore_self, List.filter_append,
        List.length_append]
      by_cases hid : t1 = t ∧ v1 = v
      · obtain ⟨rfl, rfl⟩ := hid
        rw [hfil, filter_newEntryList_self]
        have := length_newEntryList_le_one t1 v1 perm
        simp only [List.length_nil]
        omega
      · rw [filter_newEntryList_other t t1 v v1 perm hid]
        have hle : (acls1.filter (aclMatches t1 v1)).length
            ≤ ((lookupAcl st b1 p1).filter (aclMatches t1 v1)).length :=
          (hsub.filter (aclMatches t1 v1)).length_le
        have := hInv b1 p1 t1 v1
        simp only [List.length_nil]
        omega
    · rw [hst1, lookupAcl_updateStore_other st bucket path b1 p1 _ hbp]
      exact hInv b1 p1 t1 v1

/-- Witness for C3: overwriting the existing `READ` grant with
`FULL_CONTROL` makes `get_acl` return `FULL_CONTROL`. -/
theorem c3_set_acl_get_acl_roundtrip_witness :
    (set_acl wGsOk stExample "bkt" "pth" .groupByDomain "chromium.org"
        (some "FULL_CONTROL") = .ok stAfter)
    ∧ (get_acl wGsOk stAfter "bkt" "pth" .groupByDomain "chromium.org"
          = .ok (some "FULL_CONTROL")
      ∧ ((lookupAcl stAfter "bkt" "pth").filter
          (aclMatches .groupByDomain "chromium.org")).length ≤ 1
      ∧ ((lookupAcl stExample "bkt" "pth").filter
            (aclMatches .groupByDomain "chromium.org") = [] →
          get_acl wGsOk stExample "bkt" "pth" .groupByDomain "chromium.org"
            = .ok none)) :=
  ⟨rfl, c3_set_acl_get_acl_roundtrip wGsOk stExample "bkt" "pth"
    .groupByDomain "chromium.org" (some "FULL_CONTROL") stAfter rfl⟩

/-- Witness for C10 at the concrete store (one matching entry: no assertion
error on either operation; the invariant is preserved). -/
theorem c10_at_most_one_entry_per_identifier_witness :
    (wGsOk.connectErr "bkt" = none)
    ∧ ((get_acl wGsOk stExample "bkt" "pth" .groupByDomain "chromium.org"
          = .error .assertFail
        ↔ 2 ≤ ((lookupAcl stExample "bkt" "pth").filter
            (aclMatches .groupByDomain "chromium.org")).length)
      ∧ (set_acl wGsOk stExample "bkt" "pth" .groupByDomain "chromium.org" none
          = .error .assertFail
        ↔ 2 ≤ ((lookupAcl stExample "bkt" "pth").filter
            (aclMatches .groupByDomain "chromium.org")).length)
      ∧ (∀ st1, set_acl wGsOk stExample "bkt" "pth" .groupByDomain
            "chromium.org" none = .ok st1 →
          (∀ b1 p1 t1 v1,
            ((lookupAcl stExample b1 p1).filter (aclMatches t1 v1)).length ≤ 1) →
          (∀ b1 p1 t1 v1,
            ((lookupAcl st1 b1 p1).filter (aclMatches t1 v1)).length ≤ 1))) :=
  ⟨rfl, c10_at_most_one_entry_per_identifier wGsOk stExample "bkt" "pth"
    .groupByDomain "chromium.org" none rfl rfl⟩

/-! ## Helper lemmas: path prefix arithmetic -/

/-- A single character occurs as a substring exactly when it is a member. -/
lemma listInfix_singleton (c : Char) (l : List Char) :
    listInfix [c] l = true ↔ c ∈ l := by
  induction l with
  | nil => simp [listInfix]
  | cons a rest ih =>
    show (List.isPrefixOf [c] (a :: rest) || listInfix [c] rest) = true ↔ _
    have hpre : List.isPrefixOf [c] (a :: rest) = (c == a) := by
      simp [List.isPrefixOf]
    rw [Bool.or_eq_true, ih, hpre, List.mem_cons]
    simp [beq_iff_eq]

/-- The test `pyIn "/" s = false` means no `'/'` occurs in `s`. -/
lemma pyIn_slash_false_iff (s : String) :
    pyIn "/" s = false ↔ '/' ∉ s.data := by
  have hdata : "/".data = ['/'] := rfl
  rw [pyIn, hdata, ← Bool.not_eq_true, listInfix_singleton]

/-- Dropping the prefix length recovers a slash-free filename from the key
`posixpath.join(subdir, filename)`, where the prefix is `subdir` with a
trailing slash ensured (empty `subdir` giving the empty prefix). -/
lemma join_drop_roundtrip (subdir filename : String)
    (h : pyIn "/" filename = false) :
    pyDrop (posixpathJoin subdir filename) (listingPfx (some subdir)).length
      = filename := by
  obtain ⟨sd⟩ := subdir
  obtain ⟨fd⟩ := filename
  have hmem : '/' ∉ fd := (pyIn_slash_false_iff ⟨fd⟩).mp h
  have hhead : (String.mk fd).data.head? ≠ some '/' := by
    cases fd with
    | nil => simp
    | cons a t =>
      simp only [List.head?]
      intro heq
      injection heq with heq
      exact hmem (heq ▸ List.mem_cons_self a t)
  by_cases hnil : sd = []
  · subst hnil
    have hpfx : listingPfx (some (String.mk [])) = ⟨[]⟩ := rfl
    have hjoin : posixpathJoin (String.mk []) (String.mk fd) = String.mk fd := by
      unfold posixpathJoin
      rw [if_neg hhead, if_pos (Or.inl rfl)]
      simp
    rw [hpfx, hjoin]
    simp [pyDrop, String.length]
  · by_cases hlast : sd.getLast? = some '/'
    · simp only [listingPfx, posixpathJoin, pyDrop]
      rw [if_neg (by simp [hlast]), if_neg hhead, if_pos (Or.inr hlast)]
      simp [String.length, List.drop_left]
    · simp only [listingPfx, posixpathJoin, pyDrop]
      rw [if_pos ⟨by simpa using hnil, by simpa using hlast⟩,
        if_neg hhead, if_neg (by simp [hnil, hlast])]
      have hassoc : sd ++ '/' :: fd = (sd ++ ['/']) ++ fd := by simp
      have hlen : (String.mk (sd ++ ['/'])).length = (sd ++ ['/']).length := rfl
      simp only [hassoc, hlen, String.length]
      simp [List.drop_left]

/-- Dropping the prefix length and the trailing delimiter recovers a
directory name from the `Prefix` item `prefix + dirname + '/'`. -/
lemma dir_strip_roundtrip (pfxS d : String) :
    pyDropEnds (pfxS ++ d ++ "/") pfxS.length = d := by
  obtain ⟨pl⟩ := pfxS
  obtain ⟨dl⟩ := d
  show String.mk ((((pl ++ dl) ++ ['/']).drop pl.length).dropLast) = ⟨dl⟩
  rw [List.append_assoc, List.drop_left]
  simp

/-- Applied to `Key` items only, `splitItems` maps them to stripped file names. -/
lemma splitItems_keys (plen : Nat) (kf : String → String) :
    ∀ fs : List String, (∀ f ∈ fs, pyDrop (kf f) plen = f) →
    splitItems plen (fs.map (fun f => BotoItem.key (kf f))) = ([], fs) := by
  intro fs
  induction fs with
  | nil => intro _; simp [splitItems]
  | cons f rest ih =>
    intro hf
    simp only [List.map_cons, splitItems]
    rw [ih (fun x hx => hf x (List.mem_cons_of_mem f hx))]
    simp [hf f (List.mem_cons_self f rest)]

/-- Applied to a block of `Prefix` items in front of a tail, `splitItems` prepends the block as stripped directory
names in front of whatever the remaining items produce. -/
lemma splitItems_dirs_then (plen : Nat) (df : String → String)
    (tail : List BotoItem) (res : List String × List String)
    (htail : splitItems plen tail = res)
    (hd : ∀ d, pyDropEnds (df d) plen = d) :
    ∀ ds, splitItems plen (ds.map (fun d => BotoItem.pfx (df d)) ++ tail)
      = (ds ++ res.1, res.2) := by
  intro ds
  induction ds with
  | nil => simpa using htail
  | cons d rest ih =>
    simp only [List.map_cons, List.cons_append, splitItems, List.append_eq]
    rw [ih]
    simp [hd d]

/-- C5: the prefix-stripping done by `list_bucket_contents` (dropping
`len(prefix)` leading characters, `prefix` being `subdir` with a trailing
`'/'` ensured) is the inverse of the `posixpath.join(subdir, filename)` used
during upload, for every subdir and every slash-free filename; directory
entries are additionally stripped of their trailing delimiter, so a listing
whose items are the prefixes `prefix + d + '/'` and the keys
`join(subdir, f)` comes back split as exactly `(dirs, files) = (ds, fs)`. -/
theorem c5_prefix_strip_inverts_join (w : GsWorld) (bucket subdir : String)
    (ds fs : List String)
    (hf : ∀ f ∈ fs, pyIn "/" f = false)
    (hc : w.connectErr bucket = none)
    (hl : w.listing bucket (listingPfx (some subdir))
        = .ok (ds.map (fun d =>
              BotoItem.pfx (listingPfx (some subdir) ++ d ++ "/"))
            ++ fs.map (fun f => BotoItem.key (posixpathJoin subdir f)))) :
    (∀ f, pyIn "/" f = false →
      pyDrop (posixpathJoin subdir f) (listingPfx (some subdir)).length = f)
    ∧ (∀ d, pyDropEnds (listingPfx (some subdir) ++ d ++ "/")
        (listingPfx (some subdir)).length = d)
    ∧ list_bucket_contents w bucket (some subdir) = .ok (ds, fs) := by
  refine ⟨fun f hf1 => join_drop_roundtrip subdir f hf1,
    fun d => dir_strip_roundtrip (listingPfx (some subdir)) d, ?_⟩
  have hsplit : splitItems (listingPfx (some subdir)).length
      (ds.map (fun d => BotoItem.pfx (listingPfx (some subdir) ++ d ++ "/"))
        ++ fs.map (fun f => BotoItem.key (posixpathJoin subdir f)))
      = (ds, fs) := by
    have hkeys := splitItems_keys (listingPfx (some subdir)).length
      (fun f => posixpathJoin subdir f) fs
      (fun f hfm => join_drop_roundtrip subdir f (hf f hfm))
    have := splitItems_dirs_then (listingPfx (some subdir)).length
      (fun d => listingPfx (some subdir) ++ d ++ "/")
      (fs.map (fun f => BotoItem.key (posixpathJoin subdir f))) ([], fs)
      hkeys (fun d => dir_strip_roundtrip (listingPfx (some subdir)) d) ds
    simpa using this
  have hplen : (if (listingPfx (some subdir)).data ≠ [] then
      (listingPfx (some subdir)).length else 0)
      = (listingPfx (some subdir)).length := by
    by_cases hp : (listingPfx (some subdir)).data = []
    · simp [hp, String.length]
    · simp [hp]
  unfold list_bucket_contents connectToBucket
  rw [hc]
  simp only [hplen, hl, hsplit]

/-- Witness for C5 with `subdir='gs_utils_test'`, one remote directory
`subdir` and one file `file1`. -/
theorem c5_prefix_strip_inverts_join_witness :
    (∀ f ∈ ["file1"], pyIn "/" f = false)
    ∧ ((∀ f, pyIn "/" f = false →
        pyDrop (posixpathJoin "gs_utils_test" f)
          (listingPfx (some "gs_utils_test")).length = f)
      ∧ (∀ d, pyDropEnds (listingPfx (some "gs_utils_test") ++ d ++ "/")
          (listingPfx (some "gs_utils_test")).length = d)
      ∧ list_bucket_contents wList "bkt" (some "gs_utils_test")
          = .ok (["subdir"], ["file1"])) :=
  ⟨by decide,
   c5_prefix_strip_inverts_join wList "bkt" "gs_utils_test" ["subdir"] ["file1"]
    (by decide) rfl rfl⟩

/-- Counterexample to C2 as stated: `get_acl` does not catch the
`BotoServerError` raised by its ACL fetch — the exception propagates with its
body unchanged (`"boom"`), naming neither the operation nor the bucket/path,
although the claim promises a rewritten message for every operation,
`get_acl` included. -/
theorem c2_counterexample :
    get_acl wFetchBoom [] "bkt" "pth" .groupByDomain "chromium.org"
      = .error (.boto "boom")
    ∧ pyIn "bkt" "boom" = false
    ∧ pyIn "while" "boom" = false := by
  refine ⟨rfl, by decide, by decide⟩

/-- Evaluation of `list_bucket_contents` once connection and listing
succeed. -/
lemma list_bucket_contents_eval (w : GsWorld) (bucket : String)
    (subdir : Option String) (items : List BotoItem)
    (hc : w.connectErr bucket = none)
    (hl : w.listing bucket (listingPfx subdir) = .ok items) :
    list_bucket_contents w bucket subdir
      = .ok (splitItems (listingPfx subdir).length items) := by
  have hplen : (if (listingPfx subdir).data ≠ [] then
      (listingPfx subdir).length else 0) = (listingPfx subdir).length := by
    by_cases hp : (listingPfx subdir).data = []
    · simp [hp, String.length]
    · simp [hp]
  unfold list_bucket_contents connectToBucket
  rw [hc]
  simp only [hplen, hl]

/-- C2 (amended): the five transfer operations — `delete_file`,
`upload_file`, `upload_dir_contents`, `download_file`,
`download_dir_contents` — catch the `BotoServerError` of their storage call
and re-raise it with the body rewritten to `repr(body)` plus a context naming
the operation and the target bucket/path; `get_acl`, `set_acl` and
`list_bucket_contents` do not catch it: the exception from their storage
calls propagates with its body unmodified (only the shared bucket-connection
helper contributes a rewritten message, for connection failures).  No
operation retries. -/
theorem c2_error_wrapping (w : GsWorld) :
    (∀ bucket path body, w.connectErr bucket = none →
      w.deleteErr bucket path = some body →
      delete_file w bucket path = .error (.boto (w.pyRepr body
        ++ " while deleting bucket=" ++ bucket ++ ", path=" ++ path)))
    ∧ (∀ st sp db dp pa fgl body, w.connectErr db = none →
      w.uploadErr sp db dp = some body →
      upload_file w st sp db dp pa fgl = .error (.boto (w.pyRepr body
        ++ " while uploading source_path=" ++ sp ++ " to bucket=" ++ db
        ++ ", path=" ++ dp)))
    ∧ (∀ st name rest sd db dd pa fgl body, w.connectErr db = none →
      w.uploadErr (posixpathJoin sd name) db (posixpathJoin dd name)
          = some body →
      upload_dir_contents w st ((name, FSNode.file) :: rest) sd db dd pa fgl
        = .error (.boto (w.pyRepr body
          ++ " while uploading local_path=" ++ posixpathJoin sd name
          ++ " to bucket=" ++ db ++ ", path=" ++ posixpathJoin dd name)))
    ∧ (∀ sb sp dp cs body, w.connectErr sb = none →
      w.downloadErr sb sp = some body →
      download_file w sb sp dp cs = .error (.boto (w.pyRepr body
        ++ " while downloading bucket=" ++ sb ++ ", path=" ++ sp
        ++ " to local_path=" ++ dp)))
    ∧ (∀ fuel sb sd dd f body, w.connectErr sb = none →
      w.listing sb (listingPfx (some sd))
          = .ok [BotoItem.key (posixpathJoin sd f)] →
      pyIn "/" f = false →
      w.downloadErr sb (posixpathJoin sd f) = some body →
      download_dir_contents w (fuel + 1) sb sd dd = .error (.boto (w.pyRepr body
        ++ " while downloading bucket=" ++ sb ++ ", path=" ++ posixpathJoin sd f
        ++ " to local_path=" ++ posixpathJoin dd f)))
    ∧ (∀ st bucket path t v body, w.connectErr bucket = none →
      w.aclFetchErr bucket path = some body →
      get_acl w st bucket path t v = .error (.boto body))
    ∧ (∀ st bucket path t v perm body, w.connectErr bucket = none →
      w.aclFetchErr bucket path = some body →
      set_acl w st bucket path t v perm = .error (.boto body))
    ∧ (∀ bucket subdir body, w.connectErr bucket = none →
      w.listing bucket (listingPfx subdir) = .error body →
      list_bucket_contents w bucket subdir = .error (.boto body)) := by
  refine ⟨?_, ?_, ?_, ?_, ?_, ?_, ?_, ?_⟩
  · intro bucket path body hc hd
    simp [delete_file, connectToBucket, hc, hd]
  · intro st sp db dp pa fgl body hc hup
    simp [upload_file, connectToBucket, hc, hup]
  · intro st name rest sd db dd pa fgl body hc hup
    simp [upload_dir_contents, uploadChildren, connectToBucket, hc, hup]
  · intro sb sp dp cs body hc hdl
    simp [download_file, connectToBucket, hc, hdl]
  · intro fuel sb sd dd f body hc hl hslash hdl
    have hlbc : list_bucket_contents w sb (some sd) = .ok ([], [f]) := by
      rw [list_bucket_contents_eval w sb (some sd) _ hc hl]
      simp [splitItems, join_drop_roundtrip sd f hslash]
    simp [download_dir_contents, connectToBucket, hc, hlbc, downloadFiles, hdl]
  · intro st bucket path t v body hc hfe
    simp [get_acl, connectToBucket, fetchAcl, hc, hfe]
  · intro st bucket path t v perm body hc hfe
    simp [set_acl, connectToBucket, fetchAcl, hc, hfe]
  · intro bucket subdir body hc hle
    unfold list_bucket_contents connectToBucket
    rw [hc]
    simp only [hle]

/-- Witness for the amended C2: every conjunct applied at a concrete world,
bucket and path. -/
theorem c2_error_wrapping_witness :
    (delete_file wGsErr "bkt" "pth" = .error (.boto
      ("D" ++ " while deleting bucket=" ++ "bkt" ++ ", path=" ++ "pth")))
    ∧ (upload_file wGsErr [] "src" "bkt" "pth" none [] = .error (.boto
      ("U" ++ " while uploading source_path=" ++ "src" ++ " to bucket="
        ++ "bkt" ++ ", path=" ++ "pth")))
    ∧ (upload_dir_contents wGsErr [] [("f1", FSNode.file)] "sd" "bkt" "dd"
        none [] = .error (.boto
      ("U" ++ " while uploading local_path=" ++ posixpathJoin "sd" "f1"
        ++ " to bucket=" ++ "bkt" ++ ", path=" ++ posixpathJoin "dd" "f1")))
    ∧ (download_file wGsErr "bkt" "pth" "loc" false = .error (.boto
      ("W" ++ " while downloading bucket=" ++ "bkt" ++ ", path=" ++ "pth"
        ++ " to local_path=" ++ "loc")))
    ∧ (download_dir_contents wDlErr (0 + 1) "bkt" "sd" "dd" = .error (.boto
      ("W" ++ " while downloading bucket=" ++ "bkt" ++ ", path="
        ++ posixpathJoin "sd" "f1" ++ " to local_path="
        ++ posixpathJoin "dd" "f1")))
    ∧ (get_acl wGsErr [] "bkt" "pth" .groupByDomain "chromium.org"
        = .error (.boto "F"))
    ∧ (set_acl wGsErr [] "bkt" "pth" .groupByDomain "chromium.org" none
        = .error (.boto "F"))
    ∧ (list_bucket_contents wGsErr "bkt" (some "sd") = .error (.boto "L")) :=
  ⟨(c2_error_wrapping wGsErr).1 "bkt" "pth" "D" rfl rfl,
   (c2_error_wrapping wGsErr).2.1 [] "src" "bkt" "pth" none [] "U" rfl rfl,
   (c2_error_wrapping wGsErr).2.2.1 [] "f1" [] "sd" "bkt" "dd" none [] "U"
     rfl rfl,
   (c2_error_wrapping wGsErr).2.2.2.1 "bkt" "pth" "loc" false "W" rfl rfl,
   (c2_error_wrapping wDlErr).2.2.2.2.1 0 "bkt" "sd" "dd" "f1" "W" rfl rfl
     (by decide) rfl,
   (c2_error_wrapping wGsErr).2.2.2.2.2.1 [] "bkt" "pth" .groupByDomain
     "chromium.org" "F" rfl rfl,
   (c2_error_wrapping wGsErr).2.2.2.2.2.2.1 [] "bkt" "pth" .groupByDomain
     "chromium.org" none "F" rfl rfl,
   (c2_error_wrapping wGsErr).2.2.2.2.2.2.2 "bkt" (some "sd") "L" rfl rfl⟩

/-- Witness for C9: a first upload that fails still consumes patch-set
number one, leaving the counter at `1`. -/
theorem c9_failed_upload_consumes_number_witness :
    (commitBenign wUploadFails [] "git" gbTopic = true)
    ∧ (wUploadFails.run ([] ++ [["git", "commit", "-a", "-m", "msg"]])
        (uploadCmd "git" (gbTopic.patch_set + 1) false) = .fail "upload failed")
    ∧ (GitBranch.commit_and_upload wUploadFails "git" gbTopic false []
        = (.error (.commandFailed "upload failed"),
           { gbTopic with patch_set := gbTopic.patch_set + 1 },
           [] ++ [["git", "commit", "-a", "-m", gbTopic.commit_msg],
                  uploadCmd "git" (gbTopic.patch_set + 1) false])
      ∧ (∀ w1 tr1 ucq1,
          commitBenign w1 tr1 "git"
            { gbTopic with patch_set := gbTopic.patch_set + 1 } = true →
          List.IsPrefix
            (tr1 ++ [[ "git", "commit", "-a", "-m", gbTopic.commit_msg],
                     uploadCmd "git" (gbTopic.patch_set + 2) ucq1])
            (GitBranch.commit_and_upload w1 "git"
              { gbTopic with patch_set := gbTopic.patch_set + 1 } ucq1 tr1).2.2)
      ∧ (∀ w1 tr1 ucq1 (gb1 : GitBranch),
          gb1.patch_set
            ≤ (GitBranch.commit_and_upload w1 "git" gb1 ucq1 tr1).2.1.patch_set)) :=
  ⟨rfl, rfl,
   c9_failed_upload_consumes_number wUploadFails [] "git" gbTopic false
     "upload failed" rfl rfl⟩
